import Mathlib

/-!
Verification of the Groq TTS proxy (src/scripts/groq-tts-proxy.py).

The program is a small HTTP proxy: a health endpoint at the root path, a
voice-catalog endpoint, and a speech endpoint that parses a JSON body,
normalizes the model, voice and response_format fields, forwards the body
to the upstream provider and relays the upstream response.

The embedding below models JSON values as an inductive type, Python dicts
as association lists (first occurrence wins on lookup, in-place update on
assignment, append on fresh keys — the observable behavior of a Python
dict), and the request handlers as pure functions of the parsed request and
the upstream behavior.  Python exception behavior is modelled explicitly:
an unhandled exception inside a FastAPI handler (json.JSONDecodeError from
request.json, AttributeError from calling .get or .startswith on a
non-dict/non-string, httpx network errors) is converted by the Starlette
server-error middleware into a plain-text 500 response, which the model
renders as internalErrorResp.
-/

namespace GroqTTSProxy

/-- A JSON value, as produced by Python json parsing of a request body. -/
inductive JsonVal where
  | null : JsonVal
  | bool (b : Bool) : JsonVal
  | num (n : Int) : JsonVal
  | str (s : String) : JsonVal
  | arr (elems : List JsonVal) : JsonVal
  | obj (fields : List (String × JsonVal)) : JsonVal

/-- A JSON object body, the shape the speech handler manipulates. -/
abbrev Obj := List (String × JsonVal)

/-- Lookup of a key in a Python dict: the first matching entry, if any. -/
def get? : Obj → String → Option JsonVal
  | [], _ => none
  | (k1, v1) :: rest, k => if k1 = k then some v1 else get? rest k

/-- Python dict.get with a default value. -/
def getD (b : Obj) (k : String) (d : JsonVal) : JsonVal :=
  (get? b k).getD d

/-- Python key-membership test on a dict. -/
def hasKey (b : Obj) (k : String) : Bool :=
  (get? b k).isSome

/-- Python dict assignment: replace the value of an existing key in place,
or append the binding at the end when the key is fresh. -/
def setKey : Obj → String → JsonVal → Obj
  | [], k, v => [(k, v)]
  | (k1, v1) :: rest, k, v =>
      if k1 = k then (k, v) :: rest else (k1, v1) :: setKey rest k v

/-- Python str.startswith, on the character lists of the two strings. -/
def startswith (s pre : String) : Bool :=
  pre.data.isPrefixOf s.data

/-- The voice catalog, VOICES in the source. -/
def VOICES : List String :=
  ["troy", "austin", "daniel", "autumn", "diana", "hannah"]

/-- Python membership test body.get("voice") in VOICES: an absent key gives
None, which is not in the list; a non-string value is never equal to any
of the six strings; a string value is in the list exactly when it is one
of the six catalog entries. -/
def inVoices : Option JsonVal → Bool
  | some (JsonVal.str s) => decide (s ∈ VOICES)
  | _ => false

/-- The model step of the speech handler:
model = body.get("model", ""); if not model.startswith("canopylabs/"):
body["model"] = "canopylabs/orpheus-v1-english".  Calling .startswith on a
non-string value raises AttributeError, modelled as none. -/
def normalizeModel (b : Obj) : Option Obj :=
  match getD b "model" (JsonVal.str "") with
  | JsonVal.str s =>
      if startswith s "canopylabs/" then some b
      else some (setKey b "model" (JsonVal.str "canopylabs/orpheus-v1-english"))
  | _ => none

/-- The voice step of the speech handler:
if body.get("voice") not in VOICES: body["voice"] = "troy". -/
def normalizeVoice (b : Obj) : Obj :=
  if inVoices (get? b "voice") then b else setKey b "voice" (JsonVal.str "troy")

/-- The response_format step of the speech handler:
if "response_format" not in body: body["response_format"] = "wav". -/
def normalizeFormat (b : Obj) : Obj :=
  if hasKey b "response_format" then b else setKey b "response_format" (JsonVal.str "wav")

/-- The whole normalization performed by the speech handler before
forwarding: model step, then voice step, then response_format step.  The
result is none when the model step raises. -/
def normalize (b : Obj) : Option Obj :=
  match normalizeModel b with
  | none => none
  | some b1 => some (normalizeFormat (normalizeVoice b1))

/-- The inbound request body as seen by the handler: either bytes that do
not parse as JSON, or a parsed JSON value. -/
inductive ReqBody where
  | invalid : ReqBody
  | json (v : JsonVal) : ReqBody

/-- Behavior of the upstream provider on the forwarded call: a response
with a status code, binary content and its text decoding, or a
network-level failure (connection refused, DNS failure, timeout), which
httpx raises as an exception. -/
inductive UpstreamBehavior where
  | responds (status : Nat) (content : List Nat) (text : String) : UpstreamBehavior
  | netFail : UpstreamBehavior

/-- The body of an HTTP response returned to the caller. -/
inductive RespBody where
  | bytes (content : List Nat) : RespBody
  | jsonDetail (detail : String) : RespBody
  | jsonVal (v : JsonVal) : RespBody
  | plainText (text : String) : RespBody
  | empty : RespBody

/-- An HTTP response returned to the caller: status code, the single
content-type header the handler sets, and the body. -/
structure HttpResp where
  status : Nat
  contentType : String
  body : RespBody

/-- The response produced by the Starlette server-error middleware when a
handler raises an unhandled exception. -/
def internalErrorResp : HttpResp :=
  ⟨500, "text/plain", RespBody.plainText "Internal Server Error"⟩

/-- Everything observable about one run of the speech handler: the response
sent to the caller, whether an upstream call was attempted, and the body
forwarded upstream, if any. -/
structure SpeechResult where
  response : HttpResp
  upstreamCalled : Bool
  forwarded : Option Obj

/-- The speech handler (POST /v1/audio/speech and /audio/speech).
Invalid JSON makes request.json raise (500, no upstream call); a non-object
JSON value makes body.get raise AttributeError (500, no upstream call); a
failing normalization raises AttributeError (500, no upstream call);
otherwise the normalized body is forwarded once, a 200 upstream response is
relayed as audio/wav bytes, a non-200 upstream response becomes
HTTPException(status_code, detail=resp.text), and a network failure is an
unhandled httpx exception (500). -/
def speech (body : ReqBody) (up : UpstreamBehavior) : SpeechResult :=
  match body with
  | ReqBody.invalid => ⟨internalErrorResp, false, none⟩
  | ReqBody.json v =>
      match v with
      | JsonVal.obj fields =>
          match normalize fields with
          | none => ⟨internalErrorResp, false, none⟩
          | some nb =>
              match up with
              | UpstreamBehavior.netFail => ⟨internalErrorResp, true, some nb⟩
              | UpstreamBehavior.responds st c t =>
                  if st = 200 then ⟨⟨200, "audio/wav", RespBody.bytes c⟩, true, some nb⟩
                  else ⟨⟨st, "application/json", RespBody.jsonDetail t⟩, true, some nb⟩
      | _ => ⟨internalErrorResp, false, none⟩

/-- A request body the spec calls malformed: not valid JSON, or valid JSON
that is not an object. -/
def malformed : ReqBody → Bool
  | ReqBody.invalid => true
  | ReqBody.json (JsonVal.obj _) => false
  | ReqBody.json _ => true

/-- HTTP methods, for the routing behavior of the root endpoint. -/
inductive Method where
  | get : Method
  | head : Method
  | post : Method
  | put : Method
  | delete : Method
  | patch : Method
  | options : Method

/-- The fixed status object returned by the root handler. -/
def rootObj : JsonVal :=
  JsonVal.obj [("status", JsonVal.str "ok"), ("service", JsonVal.str "Groq TTS Proxy")]

/-- The HTTP response carrying the fixed status object. -/
def statusResp : HttpResp :=
  ⟨200, "application/json", RespBody.jsonVal rootObj⟩

/-- The root path endpoint.  The source registers only GET / (app.get), so
Starlette routes GET to the handler, serves HEAD with the same status and
no body, and answers every other method with 405 Method Not Allowed.  The
handler ignores the request body and headers. -/
def rootEndpoint : Method → ReqBody → List (String × String) → HttpResp
  | Method.get, _, _ => statusResp
  | Method.head, _, _ => ⟨200, "application/json", RespBody.empty⟩
  | _, _, _ => ⟨405, "text/plain", RespBody.plainText "Method Not Allowed"⟩

-- Basic association-list lemmas.

theorem get?_setKey_self (b : Obj) (k : String) (v : JsonVal) :
    get? (setKey b k v) k = some v := by
  induction b with
  | nil => simp [setKey, get?]
  | cons hd tl ih =>
      obtain ⟨k1, v1⟩ := hd
      by_cases h : k1 = k
      · simp [setKey, h, get?]
      · simp [setKey, h, get?, ih]

theorem get?_setKey_ne (b : Obj) (k k2 : String) (v : JsonVal) (h : k ≠ k2) :
    get? (setKey b k v) k2 = get? b k2 := by
  induction b with
  | nil => simp [setKey, get?, h]
  | cons hd tl ih =>
      obtain ⟨k1, v1⟩ := hd
      by_cases h1 : k1 = k
      · subst h1
        simp [setKey, get?, h]
      · simp [setKey, h1, get?, ih]

-- Characterization of the three normalization steps.

theorem get?_normalizeVoice_ne (b : Obj) (k : String) (h : k ≠ "voice") :
    get? (normalizeVoice b) k = get? b k := by
  unfold normalizeVoice
  by_cases hv : inVoices (get? b "voice") = true
  · rw [if_pos hv]
  · rw [if_neg hv]
    exact get?_setKey_ne b "voice" k _ (Ne.symm h)

theorem get?_normalizeFormat_ne (b : Obj) (k : String) (h : k ≠ "response_format") :
    get? (normalizeFormat b) k = get? b k := by
  unfold normalizeFormat
  by_cases hf : hasKey b "response_format" = true
  · rw [if_pos hf]
  · rw [if_neg hf]
    exact get?_setKey_ne b "response_format" k _ (Ne.symm h)

theorem get?_normalizeModel_ne (b b1 : Obj) (k : String)
    (h : normalizeModel b = some b1) (hk : k ≠ "model") :
    get? b1 k = get? b k := by
  unfold normalizeModel at h
  split at h
  · split at h
    · cases h
      rfl
    · cases h
      exact get?_setKey_ne b "model" k _ (Ne.symm hk)
  · cases h

theorem model_after (b b1 : Obj) (h : normalizeModel b = some b1) :
    ∃ m, get? b1 "model" = some (JsonVal.str m) ∧ startswith m "canopylabs/" = true := by
  unfold normalizeModel at h
  split at h
  case _ s heq =>
    by_cases hp : startswith s "canopylabs/" = true
    · rw [if_pos hp] at h
      cases h
      refine ⟨s, ?_, hp⟩
      unfold getD at heq
      cases hg : get? b "model" with
      | none =>
          rw [hg] at heq
          simp at heq
          subst heq
          exact absurd hp (by decide)
      | some v =>
          rw [hg] at heq
          simp at heq
          rw [heq]
    · rw [if_neg hp] at h
      cases h
      exact ⟨"canopylabs/orpheus-v1-english", get?_setKey_self b "model" _, by decide⟩
  · cases h

theorem voice_after (b : Obj) :
    inVoices (get? (normalizeVoice b) "voice") = true := by
  unfold normalizeVoice
  by_cases hv : inVoices (get? b "voice") = true
  · rw [if_pos hv]
    exact hv
  · rw [if_neg hv, get?_setKey_self]
    decide

theorem format_after (b : Obj) :
    hasKey (normalizeFormat b) "response_format" = true := by
  unfold normalizeFormat
  by_cases hf : hasKey b "response_format" = true
  · rw [if_pos hf]
    exact hf
  · rw [if_neg hf]
    unfold hasKey
    rw [get?_setKey_self]
    rfl

theorem get?_normalize_ne (b nb : Obj) (k : String) (h : normalize b = some nb)
    (hk1 : k ≠ "model") (hk2 : k ≠ "voice") (hk3 : k ≠ "response_format") :
    get? nb k = get? b k := by
  unfold normalize at h
  cases hm : normalizeModel b with
  | none => rw [hm] at h; cases h
  | some b1 =>
      rw [hm] at h
      cases h
      rw [get?_normalizeFormat_ne _ _ hk3, get?_normalizeVoice_ne _ _ hk2,
        get?_normalizeModel_ne b b1 k hm hk1]

-- Decomposition of a successful normalization into its three steps.

theorem normalize_split (b nb : Obj) (h : normalize b = some nb) :
    ∃ b1, normalizeModel b = some b1 ∧ nb = normalizeFormat (normalizeVoice b1) := by
  unfold normalize at h
  cases hm : normalizeModel b with
  | none => rw [hm] at h; cases h
  | some b1 =>
      rw [hm] at h
      cases h
      exact ⟨b1, rfl, rfl⟩

theorem normalizeModel_default (b b1 : Obj) (h : normalizeModel b = some b1)
    (hin : get? b "model" = none ∨
      ∃ s, get? b "model" = some (JsonVal.str s) ∧ startswith s "canopylabs/" = false) :
    get? b1 "model" = some (JsonVal.str "canopylabs/orpheus-v1-english") := by
  unfold normalizeModel getD at h
  rcases hin with hin | ⟨s, hin, hp⟩
  · rw [hin] at h
    simp [Option.getD] at h
    rw [if_neg (by decide : ¬ startswith "" "canopylabs/" = true)] at h
    cases h
    exact get?_setKey_self b "model" _
  · rw [hin] at h
    simp [Option.getD] at h
    rw [if_neg (by simp [hp])] at h
    cases h
    exact get?_setKey_self b "model" _

theorem normalizeModel_keep (b b1 : Obj) (h : normalizeModel b = some b1)
    (s : String) (hin : get? b "model" = some (JsonVal.str s))
    (hp : startswith s "canopylabs/" = true) : b1 = b := by
  unfold normalizeModel getD at h
  rw [hin] at h
  simp [Option.getD, hp] at h
  exact h.symm

/-- C1 counterexample: the claim says a malformed body yields a 4xx status
and no upstream call.  On the source, request.json raises an unhandled
json.JSONDecodeError, which Starlette turns into a 500 response: the
status is 500, which is not in the 4xx range (the no-upstream-call half
does hold). -/
theorem speech_malformed_status_not_4xx :
    (speech ReqBody.invalid (UpstreamBehavior.responds 200 [] "ok")).response.status = 500 ∧
    ¬(400 ≤ (speech ReqBody.invalid (UpstreamBehavior.responds 200 [] "ok")).response.status ∧
        (speech ReqBody.invalid (UpstreamBehavior.responds 200 [] "ok")).response.status ≤ 499) ∧
    (speech ReqBody.invalid (UpstreamBehavior.responds 200 [] "ok")).upstreamCalled = false := by
  decide

/-- C1 (amended): for every malformed request body (not valid JSON, or
valid JSON that is not an object) and every upstream behavior, the speech
operation fails with the generic 500 internal server error (not a 4xx
client error) and no upstream call is made. -/
theorem malformed_request_behavior (b : ReqBody) (up : UpstreamBehavior)
    (h : malformed b = true) :
    (speech b up).response = internalErrorResp ∧
    (speech b up).response.status = 500 ∧
    (speech b up).upstreamCalled = false := by
  cases b with
  | invalid => exact ⟨rfl, rfl, rfl⟩
  | json v =>
      cases v with
      | obj fields => simp [malformed] at h
      | null => exact ⟨rfl, rfl, rfl⟩
      | bool b2 => exact ⟨rfl, rfl, rfl⟩
      | num n => exact ⟨rfl, rfl, rfl⟩
      | str s => exact ⟨rfl, rfl, rfl⟩
      | arr xs => exact ⟨rfl, rfl, rfl⟩

/-- C1 witness: the amended claim applied to an invalid-JSON body. -/
theorem malformed_request_behavior_witness :
    malformed ReqBody.invalid = true ∧
    ((speech ReqBody.invalid (UpstreamBehavior.responds 200 [] "ok")).response = internalErrorResp ∧
      (speech ReqBody.invalid (UpstreamBehavior.responds 200 [] "ok")).response.status = 500 ∧
      (speech ReqBody.invalid (UpstreamBehavior.responds 200 [] "ok")).upstreamCalled = false) :=
  ⟨rfl, malformed_request_behavior ReqBody.invalid (UpstreamBehavior.responds 200 [] "ok") rfl⟩

/-- C2 counterexample: the claim says normalization never fails, for any
JSON values of the recognized keys including non-string model values.  On
the source, a non-string model value (here the number 5) makes
model.startswith raise AttributeError: normalization fails. -/
theorem normalize_fails_on_nonstring_model :
    normalize [("model", JsonVal.num 5)] = none := rfl

/-- C2 (amended): normalization never fails provided the model key, when
present, holds a string; non-string voice and response_format values never
make it fail. -/
theorem normalize_total_for_string_model (b : Obj)
    (h : get? b "model" = none ∨ ∃ s, get? b "model" = some (JsonVal.str s)) :
    (normalize b).isSome = true := by
  obtain ⟨b1, hb1⟩ : ∃ b1, normalizeModel b = some b1 := by
    unfold normalizeModel getD
    rcases h with h | ⟨s, h⟩
    · rw [h]
      by_cases hp : startswith "" "canopylabs/" = true
      · exact ⟨b, by simp [Option.getD, hp]⟩
      · exact ⟨setKey b "model" (JsonVal.str "canopylabs/orpheus-v1-english"),
          by simp [Option.getD, hp]⟩
    · rw [h]
      by_cases hp : startswith s "canopylabs/" = true
      · exact ⟨b, by simp [Option.getD, hp]⟩
      · exact ⟨setKey b "model" (JsonVal.str "canopylabs/orpheus-v1-english"),
          by simp [Option.getD, hp]⟩
  unfold normalize
  rw [hb1]
  rfl

/-- C2 witness: the amended claim applied to a body without a model key. -/
theorem normalize_total_for_string_model_witness :
    (get? [("input", JsonVal.str "hi")] "model" = none ∨
      ∃ s, get? [("input", JsonVal.str "hi")] "model" = some (JsonVal.str s)) ∧
    (normalize [("input", JsonVal.str "hi")]).isSome = true :=
  ⟨Or.inl rfl, normalize_total_for_string_model _ (Or.inl rfl)⟩

/-- C3: when normalization succeeds (so a body is forwarded), a model key
that is absent or holds a string not starting with canopylabs/ is replaced
by canopylabs/orpheus-v1-english in the forwarded body, and a model string
that already starts with canopylabs/ is forwarded unchanged. -/
theorem model_default_rule (b nb : Obj) (h : normalize b = some nb) :
    (get? b "model" = none →
      get? nb "model" = some (JsonVal.str "canopylabs/orpheus-v1-english")) ∧
    (∀ s, get? b "model" = some (JsonVal.str s) → startswith s "canopylabs/" = false →
      get? nb "model" = some (JsonVal.str "canopylabs/orpheus-v1-english")) ∧
    (∀ s, get? b "model" = some (JsonVal.str s) → startswith s "canopylabs/" = true →
      get? nb "model" = some (JsonVal.str s)) := by
  obtain ⟨b1, hm, hnb⟩ := normalize_split b nb h
  have hpre : get? nb "model" = get? b1 "model" := by
    rw [hnb, get?_normalizeFormat_ne _ _ (by decide), get?_normalizeVoice_ne _ _ (by decide)]
  refine ⟨?_, ?_, ?_⟩
  · intro habs
    rw [hpre]
    exact normalizeModel_default b b1 hm (Or.inl habs)
  · intro s hs hp
    rw [hpre]
    exact normalizeModel_default b b1 hm (Or.inr ⟨s, hs, hp⟩)
  · intro s hs hp
    rw [hpre, normalizeModel_keep b b1 hm s hs hp]
    exact hs

/-- C3 witness: the rule applied to the body with model gpt-4, which does
not start with canopylabs/. -/
theorem model_default_rule_witness :
    normalize [("model", JsonVal.str "gpt-4")] =
      some [("model", JsonVal.str "canopylabs/orpheus-v1-english"),
        ("voice", JsonVal.str "troy"), ("response_format", JsonVal.str "wav")] ∧
    ((get? [("model", JsonVal.str "gpt-4")] "model" = none →
        get? [("model", JsonVal.str "canopylabs/orpheus-v1-english"),
          ("voice", JsonVal.str "troy"), ("response_format", JsonVal.str "wav")] "model" =
          some (JsonVal.str "canopylabs/orpheus-v1-english")) ∧
      (∀ s, get? [("model", JsonVal.str "gpt-4")] "model" = some (JsonVal.str s) →
        startswith s "canopylabs/" = false →
        get? [("model", JsonVal.str "canopylabs/orpheus-v1-english"),
          ("voice", JsonVal.str "troy"), ("response_format", JsonVal.str "wav")] "model" =
          some (JsonVal.str "canopylabs/orpheus-v1-english")) ∧
      (∀ s, get? [("model", JsonVal.str "gpt-4")] "model" = some (JsonVal.str s) →
        startswith s "canopylabs/" = true →
        get? [("model", JsonVal.str "canopylabs/orpheus-v1-english"),
          ("voice", JsonVal.str "troy"), ("response_format", JsonVal.str "wav")] "model" =
          some (JsonVal.str s))) :=
  ⟨rfl, model_default_rule _ _ rfl⟩

/-- C4: when normalization succeeds, a voice value that is absent or not
one of the six catalog entries (which includes every non-string value) is
replaced by troy in the forwarded body, and a voice that is a catalog
entry is forwarded unchanged.  The code test body.get("voice") in VOICES
is embedded as inVoices. -/
theorem voice_default_rule (b nb : Obj) (h : normalize b = some nb) :
    (inVoices (get? b "voice") = false → get? nb "voice" = some (JsonVal.str "troy")) ∧
    (∀ s, get? b "voice" = some (JsonVal.str s) → s ∈ VOICES →
      get? nb "voice" = some (JsonVal.str s)) := by
  obtain ⟨b1, hm, hnb⟩ := normalize_split b nb h
  have hb1 : get? b1 "voice" = get? b "voice" :=
    get?_normalizeModel_ne b b1 _ hm (by decide)
  have hfmt : get? nb "voice" = get? (normalizeVoice b1) "voice" := by
    rw [hnb, get?_normalizeFormat_ne _ _ (by decide)]
  constructor
  · intro hno
    rw [hfmt]
    unfold normalizeVoice
    have hcond : inVoices (get? b1 "voice") = false := by rw [hb1]; exact hno
    rw [if_neg (by simp [hcond])]
    exact get?_setKey_self b1 "voice" _
  · intro s hs hmem
    rw [hfmt]
    unfold normalizeVoice
    have hcond : inVoices (get? b1 "voice") = true := by
      rw [hb1, hs]
      exact decide_eq_true hmem
    rw [if_pos hcond, hb1]
    exact hs

/-- C4 witness: the rule applied to the body with voice bob, which is not
in the catalog. -/
theorem voice_default_rule_witness :
    normalize [("voice", JsonVal.str "bob")] =
      some [("voice", JsonVal.str "troy"),
        ("model", JsonVal.str "canopylabs/orpheus-v1-english"),
        ("response_format", JsonVal.str "wav")] ∧
    ((inVoices (get? [("voice", JsonVal.str "bob")] "voice") = false →
        get? [("voice", JsonVal.str "troy"),
          ("model", JsonVal.str "canopylabs/orpheus-v1-english"),
          ("response_format", JsonVal.str "wav")] "voice" = some (JsonVal.str "troy")) ∧
      (∀ s, get? [("voice", JsonVal.str "bob")] "voice" = some (JsonVal.str s) →
        s ∈ VOICES →
        get? [("voice", JsonVal.str "troy"),
          ("model", JsonVal.str "canopylabs/orpheus-v1-english"),
          ("response_format", JsonVal.str "wav")] "voice" = some (JsonVal.str s))) :=
  ⟨rfl, voice_default_rule _ _ rfl⟩

/-- C5: when normalization succeeds, a body without response_format is
forwarded with response_format wav, and a present response_format value —
whatever JSON value it is — is forwarded unchanged, with no validation. -/
theorem format_default_rule (b nb : Obj) (h : normalize b = some nb) :
    (get? b "response_format" = none →
      get? nb "response_format" = some (JsonVal.str "wav")) ∧
    (∀ v, get? b "response_format" = some v → get? nb "response_format" = some v) := by
  obtain ⟨b1, hm, hnb⟩ := normalize_split b nb h
  have hb2 : get? (normalizeVoice b1) "response_format" = get? b "response_format" := by
    rw [get?_normalizeVoice_ne _ _ (by decide)]
    exact get?_normalizeModel_ne b b1 _ hm (by decide)
  constructor
  · intro habs
    rw [hnb]
    unfold normalizeFormat
    have hk : hasKey (normalizeVoice b1) "response_format" = false := by
      unfold hasKey
      rw [hb2, habs]
      rfl
    rw [if_neg (by simp [hk])]
    exact get?_setKey_self _ "response_format" _
  · intro v hv
    rw [hnb]
    unfold normalizeFormat
    have hk : hasKey (normalizeVoice b1) "response_format" = true := by
      unfold hasKey
      rw [hb2, hv]
      rfl
    rw [if_pos hk, hb2]
    exact hv

/-- C5 witness: the rule applied to a body carrying response_format mp3,
a value the handler does not validate and forwards unchanged. -/
theorem format_default_rule_witness :
    normalize [("response_format", JsonVal.str "mp3")] =
      some [("response_format", JsonVal.str "mp3"),
        ("model", JsonVal.str "canopylabs/orpheus-v1-english"),
        ("voice", JsonVal.str "troy")] ∧
    ((get? [("response_format", JsonVal.str "mp3")] "response_format" = none →
        get? [("response_format", JsonVal.str "mp3"),
          ("model", JsonVal.str "canopylabs/orpheus-v1-english"),
          ("voice", JsonVal.str "troy")] "response_format" = some (JsonVal.str "wav")) ∧
      (∀ v, get? [("response_format", JsonVal.str "mp3")] "response_format" = some v →
        get? [("response_format", JsonVal.str "mp3"),
          ("model", JsonVal.str "canopylabs/orpheus-v1-english"),
          ("voice", JsonVal.str "troy")] "response_format" = some v)) :=
  ⟨rfl, format_default_rule _ _ rfl⟩

/-- C6: whenever the speech handler makes an upstream call and the
upstream responds with status st, content c and text t, the handler
returns 200 with content type audio/wav and exactly the bytes c when
st is 200, and otherwise raises HTTPException carrying exactly the
upstream status st and the upstream text t as the error detail, with no
binary content.  The embedding makes exactly one upstream call per
request, so no retry occurs. -/
theorem upstream_relay (b : ReqBody) (st : Nat) (c : List Nat) (t : String)
    (h : (speech b (UpstreamBehavior.responds st c t)).upstreamCalled = true) :
    (st = 200 →
      (speech b (UpstreamBehavior.responds st c t)).response =
        ⟨200, "audio/wav", RespBody.bytes c⟩) ∧
    (st ≠ 200 →
      (speech b (UpstreamBehavior.responds st c t)).response =
        ⟨st, "application/json", RespBody.jsonDetail t⟩) := by
  cases b with
  | invalid => simp [speech] at h
  | json v =>
      cases v with
      | obj fields =>
          cases hn : normalize fields with
          | none => simp [speech, hn] at h
          | some nb =>
              constructor
              · intro h200
                subst h200
                simp [speech, hn]
              · intro hne
                simp [speech, hn, hne]
      | null => simp [speech] at h
      | bool b2 => simp [speech] at h
      | num n => simp [speech] at h
      | str s => simp [speech] at h
      | arr xs => simp [speech] at h

/-- C6 witness: an upstream 429 with body rate limited is relayed as an
error with status 429 and detail rate limited. -/
theorem upstream_relay_witness :
    (speech (ReqBody.json (JsonVal.obj []))
      (UpstreamBehavior.responds 429 [] "rate limited")).upstreamCalled = true ∧
    ((429 = 200 →
        (speech (ReqBody.json (JsonVal.obj []))
          (UpstreamBehavior.responds 429 [] "rate limited")).response =
          ⟨200, "audio/wav", RespBody.bytes []⟩) ∧
      (429 ≠ 200 →
        (speech (ReqBody.json (JsonVal.obj []))
          (UpstreamBehavior.responds 429 [] "rate limited")).response =
          ⟨429, "application/json", RespBody.jsonDetail "rate limited"⟩)) :=
  ⟨rfl, upstream_relay (ReqBody.json (JsonVal.obj [])) 429 [] "rate limited" rfl⟩

/-- C7 counterexample: the claim says the upstream-unreachable/timeout
error is distinguishable from a malformed-request error.  On the source
both are unhandled exceptions, so both become the identical generic 500
response: the network-failure response equals the malformed-body
response. -/
theorem netfail_response_equals_malformed_response :
    (speech (ReqBody.json (JsonVal.obj [])) UpstreamBehavior.netFail).response =
      (speech ReqBody.invalid (UpstreamBehavior.responds 200 [] "irrelevant")).response := rfl

/-- C7 (amended): a network-level failure or timeout of the upstream call
surfaces as the generic 500 internal server error — a 5xx-class error
that is distinguishable from every normal upstream error response, but
identical to (not distinguishable from) the malformed-request error. -/
theorem netfail_server_error (b : Obj) (h : (normalize b).isSome = true) :
    (speech (ReqBody.json (JsonVal.obj b)) UpstreamBehavior.netFail).response =
      internalErrorResp ∧
    internalErrorResp.status = 500 ∧
    (∀ st c t,
      (speech (ReqBody.json (JsonVal.obj b)) (UpstreamBehavior.responds st c t)).response ≠
        internalErrorResp) := by
  cases hn : normalize b with
  | none => rw [hn] at h; cases h
  | some nb =>
      refine ⟨by simp [speech, hn], rfl, ?_⟩
      intro st c t hcontra
      by_cases h200 : st = 200
      · subst h200
        simp [speech, hn, internalErrorResp] at hcontra
      · simp [speech, hn, h200, internalErrorResp] at hcontra

/-- C7 witness: the amended claim applied to the empty-object body. -/
theorem netfail_server_error_witness :
    (normalize ([] : Obj)).isSome = true ∧
    ((speech (ReqBody.json (JsonVal.obj [])) UpstreamBehavior.netFail).response =
        internalErrorResp ∧
      internalErrorResp.status = 500 ∧
      (∀ st c t,
        (speech (ReqBody.json (JsonVal.obj [])) (UpstreamBehavior.responds st c t)).response ≠
          internalErrorResp)) :=
  ⟨rfl, netfail_server_error [] rfl⟩

/-- C8: when normalization succeeds, every key other than model, voice and
response_format maps to exactly the same value in the forwarded body as in
the input body: normalization touches no other field. -/
theorem passthrough_frame (b nb : Obj) (k : String) (h : normalize b = some nb)
    (hk1 : k ≠ "model") (hk2 : k ≠ "voice") (hk3 : k ≠ "response_format") :
    get? nb k = get? b k :=
  get?_normalize_ne b nb k h hk1 hk2 hk3

/-- C8 witness: the input key is preserved through normalization. -/
theorem passthrough_frame_witness :
    normalize [("input", JsonVal.str "hello")] =
      some [("input", JsonVal.str "hello"),
        ("model", JsonVal.str "canopylabs/orpheus-v1-english"),
        ("voice", JsonVal.str "troy"), ("response_format", JsonVal.str "wav")] ∧
    ("input" ≠ "model" ∧ "input" ≠ "voice" ∧ "input" ≠ "response_format") ∧
    get? [("input", JsonVal.str "hello"),
      ("model", JsonVal.str "canopylabs/orpheus-v1-english"),
      ("voice", JsonVal.str "troy"), ("response_format", JsonVal.str "wav")] "input" =
      get? [("input", JsonVal.str "hello")] "input" :=
  ⟨rfl, ⟨by decide, by decide, by decide⟩,
    passthrough_frame _ _ "input" rfl (by decide) (by decide) (by decide)⟩

/-- C9 counterexample: the claim says every request to the root path gets
the fixed status object regardless of method.  The source registers only
GET for the root path, so a POST to the root path is answered by the
router with 405 Method Not Allowed, not with the status object. -/
theorem root_post_not_status_object :
    rootEndpoint Method.post (ReqBody.json JsonVal.null) [] ≠ statusResp := fun hcontra =>
  absurd (congrArg HttpResp.status hcontra) (by decide)

/-- C9 (amended): every GET request to the root path, regardless of the
body or headers sent, is answered with exactly the fixed status object
with status ok and service Groq TTS Proxy; other methods are rejected by
the router (405, or a body-less 200 for HEAD). -/
theorem root_get_fixed_response (body : ReqBody) (hdrs : List (String × String)) :
    rootEndpoint Method.get body hdrs = statusResp := rfl

/-- C10: normalization is idempotent: whenever it succeeds, running the
model, voice and response_format steps again on the normalized body leaves
it unchanged. -/
theorem normalize_idempotent (b nb : Obj) (h : normalize b = some nb) :
    normalize nb = some nb := by
  obtain ⟨b1, hm, hnb⟩ := normalize_split b nb h
  obtain ⟨m, hm1, hmp⟩ := model_after b b1 hm
  have hmodel : get? nb "model" = some (JsonVal.str m) := by
    rw [hnb, get?_normalizeFormat_ne _ _ (by decide), get?_normalizeVoice_ne _ _ (by decide)]
    exact hm1
  have hstep1 : normalizeModel nb = some nb := by
    unfold normalizeModel getD
    rw [hmodel]
    simp [Option.getD, hmp]
  have hvoice : inVoices (get? nb "voice") = true := by
    rw [hnb, get?_normalizeFormat_ne _ _ (by decide)]
    exact voice_after b1
  have hstep2 : normalizeVoice nb = nb := by
    unfold normalizeVoice
    rw [if_pos hvoice]
  have hfmt : hasKey nb "response_format" = true := by
    rw [hnb]
    exact format_after (normalizeVoice b1)
  have hstep3 : normalizeFormat nb = nb := by
    unfold normalizeFormat
    rw [if_pos hfmt]
  unfold normalize
  rw [hstep1]
  show some (normalizeFormat (normalizeVoice nb)) = some nb
  rw [hstep2, hstep3]

/-- C10 witness: normalizing the empty object and normalizing the result
again gives the same body. -/
theorem normalize_idempotent_witness :
    normalize [] =
      some [("model", JsonVal.str "canopylabs/orpheus-v1-english"),
        ("voice", JsonVal.str "troy"), ("response_format", JsonVal.str "wav")] ∧
    normalize [("model", JsonVal.str "canopylabs/orpheus-v1-english"),
        ("voice", JsonVal.str "troy"), ("response_format", JsonVal.str "wav")] =
      some [("model", JsonVal.str "canopylabs/orpheus-v1-english"),
        ("voice", JsonVal.str "troy"), ("response_format", JsonVal.str "wav")] :=
  ⟨rfl, normalize_idempotent []
    [("model", JsonVal.str "canopylabs/orpheus-v1-english"),
      ("voice", JsonVal.str "troy"), ("response_format", JsonVal.str "wav")] rfl⟩

end GroqTTSProxy
